import Mathlib

/-!
Shallow embedding of the worknow front-end view layer: the job-posting form
(`JobForm`, with its zod `jobSchema` and `onSubmit` handler) and the premium
upsell panel (`PremiumButton`).  Effectful code (axios calls, toasts, form
reset, scheduled navigation) is modelled as explicit event lists produced by
pure functions of the draft, the authenticated user and the server response.
-/

set_option maxRecDepth 8000

/-- Fields of the job-posting form, in the order they appear in `jobSchema`. -/
inductive FormField where
  | title
  | salary
  | cityId
  | phone
  | description
deriving DecidableEq, Repr

/-- A job-posting draft as held in form state: `cityId` is `none` while no
city has been selected (`undefined` in the source). -/
structure Draft where
  title : String
  salary : String
  cityId : Option Int
  phone : String
  description : String
deriving DecidableEq, Repr

/-- The `defaultValues` passed to `useForm`: empty strings and an unselected
city. -/
def defaultDraftValues : Draft :=
  { title := "", salary := "", cityId := none, phone := "", description := "" }

/-- JS regex `^\d+$`: the whole string is one or more ASCII digits. -/
def isDigits (s : String) : Bool :=
  !s.data.isEmpty && s.data.all Char.isDigit

/-- `z.string().min(3, ...).max(100, ...)` for the title field. -/
def validateTitle (s : String) : Option String :=
  if s.length < 3 then some ("Минимум 3 символа")
  else if 100 < s.length then some ("Максимум 100 символов")
  else none

/-- `z.string().regex(/^\d+$/, ...)` for the salary field. -/
def validateSalary (s : String) : Option String :=
  if isDigits s then none
  else some ("Можно вводить только цифры")

/-- `z.number(required_error ...)` for the city field: fails exactly when no
city is selected. -/
def validateCityId : Option Int → Option String
  | none => some ("Выберите город")
  | some _ => none

/-- `z.string().regex(/^\d+$/, ...).min(7, ...)` for the phone field; the
regex issue is reported first when both checks fail. -/
def validatePhone (s : String) : Option String :=
  if isDigits s then
    if s.length < 7 then some ("Минимум 7 цифр") else none
  else some ("Можно вводить только цифры")

/-- `z.string().min(10, ...).max(2000, ...)` for the description field. -/
def validateDescription (s : String) : Option String :=
  if s.length < 10 then some ("Минимум 10 символов")
  else if 2000 < s.length then some ("Максимум 2000 символов")
  else none

/-- One entry of the resolver's error object for field `f`. -/
def fieldErr (f : FormField) : Option String → List (FormField × String)
  | some m => [(f, m)]
  | none => []

/-- Validation of a draft against `jobSchema`: the per-field error messages,
in schema field order; empty exactly when the draft parses. -/
def validateJobSchema (d : Draft) : List (FormField × String) :=
  fieldErr FormField.title (validateTitle d.title) ++
  fieldErr FormField.salary (validateSalary d.salary) ++
  fieldErr FormField.cityId (validateCityId d.cityId) ++
  fieldErr FormField.phone (validatePhone d.phone) ++
  fieldErr FormField.description (validateDescription d.description)

/-- Modelled from the spec: the §3 data-model constraints stated in the
spec's own words (title 3-100 chars, salary a string of digits, cityId an
integer, phone a string of digits with at least 7, description 10-2000
chars), for comparison with the source-derived `validateJobSchema`. -/
def specValidDraft (d : Draft) : Bool :=
  decide (3 ≤ d.title.length) && decide (d.title.length ≤ 100) &&
  isDigits d.salary && d.cityId.isSome &&
  isDigits d.phone && decide (7 ≤ d.phone.length) &&
  decide (10 ≤ d.description.length) && decide (d.description.length ≤ 2000)

/-- Message lookup in the error list, mirroring access to `errors.f`. -/
def lookupErr : List (FormField × String) → FormField → Option String
  | [], _ => none
  | (g, m) :: t, f => if g = f then some m else lookupErr t f

/-- The inline error paragraph rendered under one field's input, when the
field has an error. -/
def fieldSlot (f : FormField) (errs : List (FormField × String)) :
    List (FormField × String) :=
  match lookupErr errs f with
  | some m => [(f, m)]
  | none => []

/-- The inline validation messages actually rendered by the JSX: the markup
holds an error paragraph for title, salary, cityId and phone, but the
description block renders no error paragraph. -/
def renderedInline (errs : List (FormField × String)) :
    List (FormField × String) :=
  fieldSlot FormField.title errs ++
  fieldSlot FormField.salary errs ++
  fieldSlot FormField.cityId errs ++
  fieldSlot FormField.phone errs

/-- A toast notification, as emitted through `react-hot-toast`. -/
inductive Toast where
  | success (m : String)
  | error (m : String)
deriving DecidableEq, Repr

/-- Message text of a toast. -/
def Toast.msg : Toast → String
  | .success m => m
  | .error m => m

/-- Does `listStarts a b` hold, i.e. is `a` an initial segment of `b`? -/
def listStarts : List Char → List Char → Bool
  | [], _ => true
  | _ :: _, [] => false
  | a :: as, b :: bs => a == b && listStarts as bs

/-- Does `sub` occur contiguously inside `hay`? -/
def listHasSub (sub : List Char) : List Char → Bool
  | [] => sub.isEmpty
  | b :: bs => listStarts sub (b :: bs) || listHasSub sub bs

/-- JS `s.includes(sub)`. -/
def jsIncludes (s sub : String) : Bool :=
  listHasSub sub.data s.data

/-- Consume the literal `lit` from the front of `cs`, returning the rest. -/
def dropLit : List Char → List Char → Option (List Char)
  | [], cs => some cs
  | _ :: _, [] => none
  | a :: as, c :: cs => if a = c then dropLit as cs else none

/-- Try the regex `через (\d+)м (\d+)с` anchored at the start of `cs`,
returning the two captured digit groups.  `\d+` is greedy and must be
followed by a non-digit literal, so maximal digit runs are exact. -/
def matchWaitAt (cs : List Char) : Option (String × String) :=
  match dropLit ("через ").data cs with
  | none => none
  | some r1 =>
    let m := r1.takeWhile Char.isDigit
    if m.isEmpty then none
    else
      match r1.dropWhile Char.isDigit with
      | 'м' :: ' ' :: r2 =>
        let s := r2.takeWhile Char.isDigit
        if s.isEmpty then none
        else
          match r2.dropWhile Char.isDigit with
          | 'с' :: _ => some (String.mk m, String.mk s)
          | _ => none
      | _ => none

/-- JS `errorMessage.match(/через (\d+)м (\d+)с/)`: the leftmost match,
scanning start positions left to right. -/
def findWait : List Char → Option (String × String)
  | [] => none
  | c :: cs =>
    match matchWaitAt (c :: cs) with
    | some r => some r
    | none => findWait cs

/-- The rate-limit announcement substring tested first in the error branch. -/
def pubStr : String := "Вы сможете опубликовать новое объявление"

/-- The quota substring tested second in the error branch. -/
def quotaStr : String := "Вы уже разместили 10 объявлений"

/-- The fixed quota-exceeded notification text. -/
def quotaFixedMsg : String :=
  "Достигнут лимит в 10 вакансий. Удалите одно из них, прежде чем создать новое."

/-- The generic failure notification text. -/
def genericMsg : String := "Ошибка при создании объявления. Попробуйте позже."

/-- The formatted wait-time notification built from the extracted minutes
and seconds. -/
def waitToastMsg (m s : String) : String :=
  "Подождите " ++ m ++ (" мин ") ++ s ++ (" сек перед созданием нового объявления.")

/-- The wait-time branch body: if the regex matches, show the formatted
wait-time toast, otherwise echo the raw message. -/
def rateLimitTreatment (e : String) : List Toast :=
  match findWait e.data with
  | some (m, s) => [Toast.error (waitToastMsg m s)]
  | none => [Toast.error e]

/-- Handling of a truthy `error.response.data.error` string: the
announcement substring is tested before the quota substring, and otherwise
the raw message is echoed. -/
def handleErrorMessage (e : String) : List Toast :=
  if jsIncludes e pubStr then rateLimitTreatment e
  else if jsIncludes e quotaStr then [Toast.error quotaFixedMsg]
  else [Toast.error e]

/-- JS truthiness of a possibly-absent string field: present and nonempty. -/
def truthyStr : Option String → Option String
  | none => none
  | some s => if s = "" then none else some s

/-- The error body of a failed `POST /api/jobs`: an optional `error` string
and an optional `errors` string list (a present list is truthy even when
empty, as any JS array is). -/
structure ErrorBody where
  error : Option String
  errors : Option (List String)
deriving DecidableEq, Repr

/-- Toasts emitted by the catch block of `onSubmit`; `none` models a failure
with no usable `error.response.data`. -/
def jobFailToasts : Option ErrorBody → List Toast
  | none => [Toast.error genericMsg]
  | some b =>
    match truthyStr b.error with
    | some e => handleErrorMessage e
    | none =>
      match b.errors with
      | some l => l.map Toast.error
      | none => [Toast.error genericMsg]

/-- Does any shown toast's text contain `sub`? -/
def shownContains (ts : List Toast) (sub : String) : Bool :=
  ts.any fun t => jsIncludes t.msg sub

/-- The authenticated user, as supplied by `useUser`. -/
structure User where
  id : String
deriving DecidableEq, Repr

/-- The created job record returned by the server; its shape is opaque to
the client, which only forwards it to the completion callback. -/
structure JobRecord where
  id : Nat
deriving DecidableEq, Repr

/-- The request body sent to `POST /api/jobs`. -/
structure JobPayload where
  title : String
  salary : String
  cityId : Int
  phone : String
  description : String
  userId : String
deriving DecidableEq, Repr

/-- The payload built in `onSubmit`: the draft spread with
`cityId: parseInt(data.cityId)` and the user id attached.  Validation
guarantees `cityId` is present; the `0` default is unreachable then. -/
def mkPayload (d : Draft) (u : User) : JobPayload :=
  { title := d.title, salary := d.salary, cityId := d.cityId.getD 0,
    phone := d.phone, description := d.description, userId := u.id }

/-- The server's reaction to the job-creation request. -/
inductive ServerResponse where
  | success (record : JobRecord)
  | failure (resp : Option ErrorBody)
deriving DecidableEq, Repr

/-- Observable effects of a submission, in the order the handler issues
them. -/
inductive Event where
  | networkCall (payload : JobPayload)
  | toast (t : Toast)
  | reset
  | callback (record : JobRecord)
  | scheduleNav (delayMs : Nat) (path : String)
deriving DecidableEq, Repr

/-- The `onSubmit` handler: reject when unauthenticated, otherwise post the
payload; on success toast, reset, invoke the callback when provided and
schedule navigation home after 2000 ms; on failure emit the catch-block
toasts. -/
def onSubmit (d : Draft) (user : Option User) (cbProvided : Bool)
    (srv : ServerResponse) : List Event :=
  match user with
  | none => [Event.toast (Toast.error ("Вы должны быть авторизованы!"))]
  | some u =>
    match srv with
    | ServerResponse.success record =>
      [Event.networkCall (mkPayload d u),
       Event.toast (Toast.success ("Объявление успешно создано!")),
       Event.reset]
      ++ (if cbProvided then [Event.callback record] else [])
      ++ [Event.scheduleNav 2000 ("/")]
    | ServerResponse.failure resp =>
      Event.networkCall (mkPayload d u) :: (jobFailToasts resp).map Event.toast

/-- Result of pressing submit: the resolver's field errors and the events of
the handler (empty when validation blocks the handler). -/
structure SubmitResult where
  fieldErrors : List (FormField × String)
  events : List Event
deriving DecidableEq, Repr

/-- `handleSubmit(onSubmit)` of react-hook-form with the zod resolver: when
the draft fails `jobSchema`, the handler never runs and only the field
errors are set. -/
def formSubmit (d : Draft) (user : Option User) (cbProvided : Bool)
    (srv : ServerResponse) : SubmitResult :=
  match validateJobSchema d with
  | [] => { fieldErrors := [], events := onSubmit d user cbProvided srv }
  | e :: es => { fieldErrors := e :: es, events := [] }

/-- Network calls among the emitted events. -/
def networkCallsOf : List Event → List JobPayload
  | [] => []
  | Event.networkCall p :: es => p :: networkCallsOf es
  | _ :: es => networkCallsOf es

/-- Whether a `reset` event was emitted. -/
def hasReset : List Event → Bool
  | [] => false
  | Event.reset :: _ => true
  | _ :: es => hasReset es

/-- Scheduled navigations among the emitted events. -/
def navEvents : List Event → List (Nat × String)
  | [] => []
  | Event.scheduleNav n p :: es => (n, p) :: navEvents es
  | _ :: es => navEvents es

/-- Callback invocations among the emitted events. -/
def callbackEvents : List Event → List JobRecord
  | [] => []
  | Event.callback r :: es => r :: callbackEvents es
  | _ :: es => callbackEvents es

/-- The form state after the emitted events: `reset()` restores the
`defaultValues`, and nothing else touches the fields. -/
def finalFormState (d : Draft) (es : List Event) : Draft :=
  if hasReset es then defaultDraftValues else d

/-- A city as served by `GET /api/cities`. -/
structure City where
  id : Int
  name : String
deriving DecidableEq, Repr

/-- The city selector's state: the formatted options and the loading flag. -/
structure CitiesState where
  options : List (Int × String)
  loading : Bool
deriving DecidableEq, Repr

/-- The `fetchCities` effect: on success format the options; on failure
toast an error and leave the list empty; either way loading ends. -/
def fetchCities (srv : Except Unit (List City)) : CitiesState × List Toast :=
  match srv with
  | Except.ok cs =>
    ({ options := cs.map fun c => (c.id, c.name), loading := false }, [])
  | Except.error _ =>
    ({ options := [], loading := false },
     [Toast.error ("Не удалось загрузить города!")])

/-- The `fetchUserPremiumStatus` effect of `PremiumButton`: absent user or a
failed request leaves the `isPremium` state unchanged; the catch block only
logs, emitting no toast. -/
def fetchUserPremiumStatus (user : Option User) (prior : Bool)
    (srv : Except Unit Bool) : Bool × List Toast :=
  match user with
  | none => (prior, [])
  | some _ =>
    match srv with
    | Except.ok b => (b, [])
    | Except.error _ => (prior, [])

/-- The bottom action of the premium sheet: the purchased label when
`isPremium`, else the purchase button. -/
inductive PanelAction where
  | purchasedLabel
  | purchaseButton
deriving DecidableEq, Repr

/-- Rendering of the premium sheet's bottom action from the state flag. -/
def renderPanelAction (isPremium : Bool) : PanelAction :=
  if isPremium then PanelAction.purchasedLabel else PanelAction.purchaseButton

/-- Result of `handleCheckout`: the id sent, the redirect target on success
and the toasts on failure. -/
structure CheckoutResult where
  clerkUserId : String
  redirect : Option String
  toasts : List Toast
deriving DecidableEq, Repr

/-- The `handleCheckout` effect: request a checkout session and redirect to
the returned URL; on failure toast the payment error. -/
def handleCheckout (userId : String) (srv : Except Unit String) :
    CheckoutResult :=
  match srv with
  | Except.ok url => { clerkUserId := userId, redirect := some url, toasts := [] }
  | Except.error _ =>
    { clerkUserId := userId, redirect := none,
      toasts := [Toast.error ("payment_error")] }

theorem fieldErr_eq_nil (f : FormField) (o : Option String) :
    fieldErr f o = [] ↔ o = none := by
  cases o <;> simp [fieldErr]

theorem validateTitle_eq_none (s : String) :
    validateTitle s = none ↔ (3 ≤ s.length ∧ s.length ≤ 100) := by
  unfold validateTitle
  split_ifs with h1 h2 <;> simp_all

theorem validateSalary_eq_none (s : String) :
    validateSalary s = none ↔ isDigits s = true := by
  unfold validateSalary
  split_ifs with h <;> simp_all

theorem validateCityId_eq_none (c : Option Int) :
    validateCityId c = none ↔ c.isSome = true := by
  cases c <;> simp [validateCityId]

theorem validatePhone_eq_none (s : String) :
    validatePhone s = none ↔ (isDigits s = true ∧ 7 ≤ s.length) := by
  unfold validatePhone
  split_ifs with h1 h2 <;> simp_all

theorem validateDescription_eq_none (s : String) :
    validateDescription s = none ↔ (10 ≤ s.length ∧ s.length ≤ 2000) := by
  unfold validateDescription
  split_ifs with h1 h2 <;> simp_all

theorem validateJobSchema_eq_nil (d : Draft) :
    validateJobSchema d = [] ↔ specValidDraft d = true := by
  simp only [validateJobSchema, List.append_eq_nil, fieldErr_eq_nil,
    validateTitle_eq_none, validateSalary_eq_none, validateCityId_eq_none,
    validatePhone_eq_none, validateDescription_eq_none, specValidDraft,
    Bool.and_eq_true, decide_eq_true_eq]
  tauto

theorem listStarts_exists {a b : List Char} (h : listStarts a b = true) :
    ∃ t, b = a ++ t := by
  induction a generalizing b with
  | nil => exact ⟨b, rfl⟩
  | cons x xs ih =>
    cases b with
    | nil => simp [listStarts] at h
    | cons y ys =>
      simp only [listStarts, Bool.and_eq_true, beq_iff_eq] at h
      obtain ⟨t, ht⟩ := ih h.2
      exact ⟨t, by simp [h.1, ht]⟩

theorem starts_self_append (a t : List Char) :
    listStarts a (a ++ t) = true := by
  induction a with
  | nil => cases t <;> simp [listStarts]
  | cons x xs ih => simp [listStarts, ih]

theorem hasSub_exists {a b : List Char} (h : listHasSub a b = true) :
    ∃ p t, b = p ++ a ++ t := by
  induction b with
  | nil =>
    simp only [listHasSub, List.isEmpty_iff] at h
    exact ⟨[], [], by simp [h]⟩
  | cons y ys ih =>
    simp only [listHasSub, Bool.or_eq_true] at h
    rcases h with h | h
    · obtain ⟨t, ht⟩ := listStarts_exists h
      exact ⟨[], t, by simp [ht]⟩
    · obtain ⟨p, t, ht⟩ := ih h
      exact ⟨y :: p, t, by simp [ht]⟩

theorem hasSub_of_decomp (p a t : List Char) :
    listHasSub a (p ++ a ++ t) = true := by
  induction p with
  | nil =>
    cases a with
    | nil =>
      cases t with
      | nil => rfl
      | cons z zs => simp [listHasSub, listStarts]
    | cons x xs =>
      have hs := starts_self_append (x :: xs) t
      simp only [List.nil_append, listHasSub, Bool.or_eq_true]
      left
      simpa using hs
  | cons y ys ih =>
    simp only [List.cons_append, listHasSub, Bool.or_eq_true]
    right
    simpa [List.append_assoc] using ih

theorem jsIncludes_trans {s mid sub : String}
    (h1 : jsIncludes s mid = true) (h2 : jsIncludes mid sub = true) :
    jsIncludes s sub = true := by
  unfold jsIncludes at *
  obtain ⟨p1, t1, e1⟩ := hasSub_exists h1
  obtain ⟨p2, t2, e2⟩ := hasSub_exists h2
  rw [e1, e2]
  have h3 := hasSub_of_decomp (p1 ++ p2) sub.data (t2 ++ t1)
  simpa [List.append_assoc] using h3

theorem handleErrorMessage_ne_nil (e : String) : handleErrorMessage e ≠ [] := by
  unfold handleErrorMessage rateLimitTreatment
  split_ifs with h1 h2
  · rcases findWait e.data with _ | ⟨m, s⟩ <;> simp
  · simp
  · simp

theorem hasReset_map_toast (ts : List Toast) :
    hasReset (ts.map Event.toast) = false := by
  induction ts with
  | nil => rfl
  | cons t ts ih => simpa [hasReset] using ih

theorem navEvents_map_toast (ts : List Toast) :
    navEvents (ts.map Event.toast) = [] := by
  induction ts with
  | nil => rfl
  | cons t ts ih => simpa [navEvents] using ih

theorem callbackEvents_map_toast (ts : List Toast) :
    callbackEvents (ts.map Event.toast) = [] := by
  induction ts with
  | nil => rfl
  | cons t ts ih => simpa [callbackEvents] using ih

theorem networkCallsOf_map_toast (ts : List Toast) :
    networkCallsOf (ts.map Event.toast) = [] := by
  induction ts with
  | nil => rfl
  | cons t ts ih => simpa [networkCallsOf] using ih

/-- C1: for every draft violating at least one §3 constraint, pressing
submit produces no event at all — in particular no network call to the
job-creation endpoint — and nonempty field errors: validation fails before
the submit handler runs. -/
theorem C1_invalid_draft_no_network (d : Draft) (user : Option User)
    (cb : Bool) (srv : ServerResponse) (hv : specValidDraft d = false) :
    (formSubmit d user cb srv).events = [] ∧
    networkCallsOf (formSubmit d user cb srv).events = [] ∧
    (formSubmit d user cb srv).fieldErrors ≠ [] := by
  have hne : validateJobSchema d ≠ [] := by
    intro h
    rw [validateJobSchema_eq_nil] at h
    rw [h] at hv
    exact absurd hv (by simp)
  rcases hlist : validateJobSchema d with _ | ⟨e, es⟩
  · exact absurd hlist hne
  · simp [formSubmit, hlist, networkCallsOf]

/-- An all-empty draft, violating several constraints at once. -/
def invalidDraftEx : Draft :=
  { title := "", salary := "", cityId := none, phone := "", description := "" }

theorem C1_witness :
    (formSubmit invalidDraftEx none false (ServerResponse.failure none)).events = [] ∧
    networkCallsOf (formSubmit invalidDraftEx none false (ServerResponse.failure none)).events = [] ∧
    (formSubmit invalidDraftEx none false (ServerResponse.failure none)).fieldErrors ≠ [] :=
  C1_invalid_draft_no_network invalidDraftEx none false
    (ServerResponse.failure none) (by decide)

/-- A draft whose only constraint violation is its too-short description. -/
def descOnlyInvalidDraft : Draft :=
  { title := "abc", salary := "100", cityId := some 1,
    phone := "1234567", description := "short" }

/-- C2 (counterexample): a draft whose description violates the 10-2000
character constraint produces a description field error, yet the JSX renders
no inline message at all — the description block has no error paragraph. -/
theorem C2_counterexample :
    (FormField.description, ("Минимум 10 символов")) ∈
      validateJobSchema descOnlyInvalidDraft ∧
    renderedInline (validateJobSchema descOnlyInvalidDraft) = [] := by
  decide

/-- C2 (amended): the rendered inline messages are exactly the validation
errors of the title, salary, cityId and phone fields; a description error is
never rendered inline. -/
theorem C2_amended_inline_messages (d : Draft) :
    renderedInline (validateJobSchema d) =
      (validateJobSchema d).filter
        (fun p => decide (p.1 ≠ FormField.description)) := by
  unfold validateJobSchema renderedInline
  rcases validateTitle d.title with _ | m1 <;>
    rcases validateSalary d.salary with _ | m2 <;>
      rcases validateCityId d.cityId with _ | m3 <;>
        rcases validatePhone d.phone with _ | m4 <;>
          rcases validateDescription d.description with _ | m5 <;>
            simp [fieldErr, fieldSlot, lookupErr]

/-- A draft satisfying every constraint. -/
def validDraftEx : Draft :=
  { title := "abc", salary := "100", cityId := some 1,
    phone := "1234567", description := "0123456789" }

/-- C3: a draft satisfying all constraints, submitted while no authenticated
user is present, produces exactly the auth-required toast and no network
call. -/
theorem C3_unauthenticated_submit (d : Draft) (cb : Bool)
    (srv : ServerResponse) (hv : specValidDraft d = true) :
    (formSubmit d none cb srv).events =
      [Event.toast (Toast.error ("Вы должны быть авторизованы!"))] ∧
    networkCallsOf (formSubmit d none cb srv).events = [] := by
  have h0 : validateJobSchema d = [] := (validateJobSchema_eq_nil d).mpr hv
  simp [formSubmit, h0, onSubmit, networkCallsOf]

theorem C3_witness :
    (formSubmit validDraftEx none false (ServerResponse.failure none)).events =
      [Event.toast (Toast.error ("Вы должны быть авторизованы!"))] ∧
    networkCallsOf (formSubmit validDraftEx none false (ServerResponse.failure none)).events = [] :=
  C3_unauthenticated_submit validDraftEx false (ServerResponse.failure none) (by decide)

/-- C4: a successful submission emits, in order, the network call, the
success toast, the reset, the callback with the created record exactly when
one was supplied, and the navigation home scheduled with a 2000 ms delay;
the form state afterwards is the empty/undefined defaults. -/
theorem C4_success_effects (d : Draft) (u : User) (cb : Bool)
    (record : JobRecord) (hv : validateJobSchema d = []) :
    (formSubmit d (some u) cb (ServerResponse.success record)).events =
      [Event.networkCall (mkPayload d u),
       Event.toast (Toast.success ("Объявление успешно создано!")),
       Event.reset]
      ++ (if cb then [Event.callback record] else [])
      ++ [Event.scheduleNav 2000 ("/")] ∧
    finalFormState d (formSubmit d (some u) cb (ServerResponse.success record)).events =
      defaultDraftValues ∧
    callbackEvents (formSubmit d (some u) cb (ServerResponse.success record)).events =
      (if cb then [record] else []) ∧
    navEvents (formSubmit d (some u) cb (ServerResponse.success record)).events =
      [(2000, ("/"))] := by
  cases cb <;>
    simp [formSubmit, hv, onSubmit, finalFormState, hasReset, callbackEvents,
      navEvents]

theorem C4_witness :
    (formSubmit validDraftEx (some { id := ("user-1") }) true
        (ServerResponse.success { id := 1 })).events =
      [Event.networkCall (mkPayload validDraftEx { id := ("user-1") }),
       Event.toast (Toast.success ("Объявление успешно создано!")),
       Event.reset]
      ++ (if true then [Event.callback { id := 1 }] else [])
      ++ [Event.scheduleNav 2000 ("/")] ∧
    finalFormState validDraftEx
        (formSubmit validDraftEx (some { id := ("user-1") }) true
          (ServerResponse.success { id := 1 })).events = defaultDraftValues ∧
    callbackEvents
        (formSubmit validDraftEx (some { id := ("user-1") }) true
          (ServerResponse.success { id := 1 })).events =
      (if true then [({ id := 1 } : JobRecord)] else []) ∧
    navEvents
        (formSubmit validDraftEx (some { id := ("user-1") }) true
          (ServerResponse.success { id := 1 })).events = [(2000, ("/"))] :=
  C4_success_effects validDraftEx { id := ("user-1") } true { id := 1 } (by decide)

/-- An error message containing the literal "через 5м 30с" whose first
wait-time match is an earlier, different pair. -/
def exC5 : String :=
  "Вы сможете опубликовать новое объявление через 1м 2с, а не через 5м 30с"

/-- C5 (counterexample): this failed submission's error text contains
"через 5м 30с", yet the shown notification is formatted from the first
regex match ("1", "2") and contains neither "5" nor "30". -/
theorem C5_counterexample :
    jsIncludes exC5 ("через 5м 30с") = true ∧
    handleErrorMessage exC5 =
      [Toast.error (waitToastMsg ("1") ("2"))] ∧
    shownContains (handleErrorMessage exC5) ("5") = false ∧
    shownContains (handleErrorMessage exC5) ("30") = false := by
  decide

/-- C5 (amended): when the error text contains "через 5м 30с", the shown
notification contains "5" and "30" provided the message's first wait-time
match is exactly ("5", "30") when the wait-time branch is taken, and, when
that branch is not taken, the quota branch is not taken either (so the raw
message is echoed). -/
theorem C5_amended_rate_limit (e : String)
    (h : (jsIncludes e pubStr = true ∧ findWait e.data = some (("5"), ("30"))) ∨
         (jsIncludes e pubStr = false ∧ jsIncludes e quotaStr = false ∧
          jsIncludes e ("через 5м 30с") = true)) :
    shownContains (handleErrorMessage e) ("5") = true ∧
    shownContains (handleErrorMessage e) ("30") = true := by
  rcases h with ⟨hp, hw⟩ | ⟨hp, hq, h530⟩
  · have he : handleErrorMessage e = [Toast.error (waitToastMsg ("5") ("30"))] := by
      simp [handleErrorMessage, hp, rateLimitTreatment, hw]
    rw [he]
    decide
  · have he : handleErrorMessage e = [Toast.error e] := by
      simp [handleErrorMessage, hp, hq]
    rw [he]
    have h5 : jsIncludes e ("5") = true :=
      jsIncludes_trans h530 (by decide)
    have h30 : jsIncludes e ("30") = true :=
      jsIncludes_trans h530 (by decide)
    simp [shownContains, Toast.msg, h5, h30]

/-- The intended rate-limit message, whose first wait-time match is
("5", "30"). -/
def exC5ok : String := "Вы сможете опубликовать новое объявление через 5м 30с"

theorem C5_witness :
    shownContains (handleErrorMessage exC5ok) ("5") = true ∧
    shownContains (handleErrorMessage exC5ok) ("30") = true :=
  C5_amended_rate_limit exC5ok (Or.inl ⟨by decide, by decide⟩)

/-- A quota error message that also contains the rate-limit announcement
substring. -/
def exC6 : String :=
  "Вы уже разместили 10 объявлений. Вы сможете опубликовать новое объявление позже"

/-- C6 (counterexample): this error body signals the quota via the known
substring, yet the shown notification is not the fixed quota message — the
rate-limit branch matched first and echoed the raw message. -/
theorem C6_counterexample :
    jsIncludes exC6 quotaStr = true ∧
    jobFailToasts (some { error := some exC6, errors := none }) =
      [Toast.error exC6] ∧
    jobFailToasts (some { error := some exC6, errors := none }) ≠
      [Toast.error quotaFixedMsg] := by
  decide

/-- C6 (amended): when the error message contains the quota substring and
does not contain the rate-limit announcement substring, the fixed quota
message is shown verbatim, independent of the rest of the server message. -/
theorem C6_amended_quota_message (e : String) (es : Option (List String))
    (hq : jsIncludes e quotaStr = true) (hp : jsIncludes e pubStr = false) :
    jobFailToasts (some { error := some e, errors := es }) =
      [Toast.error quotaFixedMsg] := by
  have hne : ¬ e = "" := by
    intro h
    rw [h] at hq
    exact absurd hq (by decide)
  simp [jobFailToasts, truthyStr, hne, handleErrorMessage, hp, hq]

theorem C6_witness :
    jobFailToasts (some { error := some quotaStr, errors := none }) =
      [Toast.error quotaFixedMsg] :=
  C6_amended_quota_message quotaStr none (by decide) (by decide)

/-- C7 (counterexample): a failed premium-status fetch is caught but
converted to no user-facing notification at all — the catch block only
logs — for either prior state. -/
theorem C7_counterexample :
    (fetchUserPremiumStatus (some { id := ("user-1") }) false (Except.error ())).2 = [] ∧
    (fetchUserPremiumStatus (some { id := ("user-1") }) true (Except.error ())).2 = [] := by
  constructor <;> rfl

/-- C7 (amended): every failure is absorbed by its total handler; the
city-list fetch and checkout-session failures each show exactly one error
notification, the premium-status fetch failure shows none and leaves the
premium flag unchanged, and a failed job submission always shows at least
one notification unless the server body carries an empty field-error
list. -/
theorem C7_amended_notifications :
    (fetchCities (Except.error ())).2 =
      [Toast.error ("Не удалось загрузить города!")] ∧
    (∀ uid : String,
      (handleCheckout uid (Except.error ())).toasts =
        [Toast.error ("payment_error")]) ∧
    (∀ (user : Option User) (prior : Bool),
      fetchUserPremiumStatus user prior (Except.error ()) = (prior, [])) ∧
    (∀ b : Option ErrorBody,
      jobFailToasts b ≠ [] ∨ ∃ body, b = some body ∧ body.errors = some []) := by
  refine ⟨rfl, fun uid => rfl, fun user prior => ?_, fun b => ?_⟩
  · cases user <;> rfl
  · match b with
    | none => exact Or.inl (by simp [jobFailToasts])
    | some body =>
      match he : truthyStr body.error with
      | some e =>
        refine Or.inl ?_
        simpa [jobFailToasts, he] using handleErrorMessage_ne_nil e
      | none =>
        match hes : body.errors with
        | none => exact Or.inl (by simp [jobFailToasts, he, hes])
        | some [] => exact Or.inr ⟨body, rfl, hes⟩
        | some (x :: xs) => exact Or.inl (by simp [jobFailToasts, he, hes])

/-- C8: every failed submission — whatever the error branch, and also when
validation or the auth check already aborted — emits no reset, no scheduled
navigation and no callback, and leaves the form draft unchanged; only the
success path resets and navigates. -/
theorem C8_failure_preserves_form (d : Draft) (user : Option User)
    (cb : Bool) (resp : Option ErrorBody) :
    hasReset (formSubmit d user cb (ServerResponse.failure resp)).events = false ∧
    navEvents (formSubmit d user cb (ServerResponse.failure resp)).events = [] ∧
    callbackEvents (formSubmit d user cb (ServerResponse.failure resp)).events = [] ∧
    finalFormState d (formSubmit d user cb (ServerResponse.failure resp)).events = d := by
  rcases hlist : validateJobSchema d with _ | ⟨e, es⟩ <;> rcases user with _ | u <;>
    simp [formSubmit, hlist, onSubmit, hasReset, navEvents, callbackEvents,
      finalFormState, hasReset_map_toast, navEvents_map_toast,
      callbackEvents_map_toast]

/-- C9: after a successful premium-status fetch, the panel's bottom action
is the purchase button exactly when the fetched flag is false, and the
purchased label exactly when it is true. -/
theorem C9_premium_render (u : User) (prior b : Bool) :
    (renderPanelAction (fetchUserPremiumStatus (some u) prior (Except.ok b)).1 =
        PanelAction.purchaseButton ↔ b = false) ∧
    (renderPanelAction (fetchUserPremiumStatus (some u) prior (Except.ok b)).1 =
        PanelAction.purchasedLabel ↔ b = true) := by
  cases b <;> simp [fetchUserPremiumStatus, renderPanelAction]

/-- C10: the error branches run in a fixed order — a truthy `error` string
field is handled without ever consulting the `errors` list, and a message
containing both the rate-limit and the quota substrings receives the
rate-limit treatment. -/
theorem C10_branch_order :
    (∀ (e : String) (l : List String), ¬ e = "" →
      jobFailToasts (some { error := some e, errors := some l }) =
        handleErrorMessage e) ∧
    (∀ e : String, jsIncludes e pubStr = true → jsIncludes e quotaStr = true →
      handleErrorMessage e = rateLimitTreatment e) := by
  constructor
  · intro e l he
    simp [jobFailToasts, truthyStr, he]
  · intro e hp _
    simp [handleErrorMessage, hp]

/-- A message containing both the rate-limit announcement and the quota
substrings. -/
def exBoth : String :=
  "Вы сможете опубликовать новое объявление позже: Вы уже разместили 10 объявлений"

theorem C10_witness :
    jobFailToasts (some { error := some ("x"), errors := some [("y")] }) =
      handleErrorMessage ("x") ∧
    handleErrorMessage exBoth = rateLimitTreatment exBoth :=
  ⟨C10_branch_order.1 ("x") [("y")] (by decide),
   C10_branch_order.2 exBoth (by decide) (by decide)⟩
